import Mathlib

/-!
Verification of the remote-office-sync-engine reconciler against its
natural-language specification.  The Python sources are shallowly embedded:
dictionaries become association lists, floats become rationals, optional
values become `Option`, and fallible operations return `Except`/`Option`.
Every definition mirrors a concrete function of the repository; the file
then proves or refutes the specification claims about them.
-/

namespace RemoteOfficeSync

/-- Unified per-path metadata, mirroring `FileMetadata` in
`remote_office_sync/scanner.py`.  Modification times are modelled as
rationals, sizes as integers (with the -1 directory sentinel), attribute
bitmasks as naturals.  `none` models Python `None`. -/
structure FileMetadata where
  relative_path : String
  exists_left : Bool
  exists_right : Bool
  mtime_left : Option Rat := none
  mtime_right : Option Rat := none
  size_left : Option Int := none
  size_right : Option Int := none
  attrs_left : Option Nat := none
  attrs_right : Option Nat := none
deriving Repr, DecidableEq

/-- Mirrors `FileMetadata.is_directory`: the side that exists reports size -1. -/
def FileMetadata.is_directory (m : FileMetadata) : Bool :=
  if m.exists_left then m.size_left == some (-1) else m.size_right == some (-1)

/-- Python `x or 0` on an optional mtime: `None` (and 0.0, which coincides)
collapse to 0. -/
def orZero (x : Option Rat) : Rat := x.getD 0

/-- Mirrors `ConflictDetector._is_same_content` in
`remote_office_sync/conflict.py` (lines 113-129): both sides must exist,
then sizes and mtimes are compared for exact equality, with no tolerance. -/
def isSameContent (m : FileMetadata) : Bool :=
  if !m.exists_left || !m.exists_right then false
  else (m.size_left == m.size_right) && (m.mtime_left == m.mtime_right)

/-- Mirrors the left-side change test of `SyncEngine._apply_sync_rules`
(sync_logic.py line 842): `prev_metadata and (curr.mtime_left or 0) >
(prev.mtime_left or 0)` - a strict comparison with no tolerance. -/
def leftChangedRule (prev? : Option FileMetadata) (curr : FileMetadata) : Bool :=
  match prev? with
  | none => false
  | some prev => decide (orZero curr.mtime_left > orZero prev.mtime_left)

/-- Mirrors the right-side change test of `SyncEngine._apply_sync_rules`
(sync_logic.py line 845). -/
def rightChangedRule (prev? : Option FileMetadata) (curr : FileMetadata) : Bool :=
  match prev? with
  | none => false
  | some prev => decide (orZero curr.mtime_right > orZero prev.mtime_right)

/-- Mirrors the deletion-rule sameness test `prev_metadata.mtime_left ==
curr_metadata.mtime_left` (sync_logic.py line 765): exact equality of the
optional mtimes, with no tolerance. -/
def deletionUnchangedLeft (prev curr : FileMetadata) : Bool :=
  prev.mtime_left == curr.mtime_left

/-- Mirrors the symmetric test on the right side (sync_logic.py line 809). -/
def deletionUnchangedRight (prev curr : FileMetadata) : Bool :=
  prev.mtime_right == curr.mtime_right

/-- Mirrors `ConflictDetector._was_modified_both_sides` (conflict.py lines
89-111), including the Python truthiness guard on the previous mtimes. -/
def wasModifiedBothSides (prev curr : FileMetadata) : Bool :=
  let truthy : Option Rat → Bool := fun x =>
    match x with
    | none => false
    | some v => v != 0
  let left_changed :=
    if curr.exists_left && truthy prev.mtime_left then
      decide (orZero curr.mtime_left > prev.mtime_left.getD 0)
    else false
  let right_changed :=
    if curr.exists_right && truthy prev.mtime_right then
      decide (orZero curr.mtime_right > prev.mtime_right.getD 0)
    else false
  left_changed && right_changed

/-! ## Python call binding (for the SyncEngine / ConflictDetector interface) -/

/-- Whether a Python call with `nPos` positional arguments and the given
keyword-argument names binds successfully against a parameter list that has
no defaults, no *args and no **kwargs (the shape of
`ConflictDetector.__init__` after `self`).  Binding fails - Python raises
`TypeError` - when there are too many positional arguments, an unexpected
keyword, a keyword for an already positionally-bound parameter, or an
unbound parameter. -/
def pyCallBindsOk (params : List String) (nPos : Nat) (kwargs : List String) : Bool :=
  decide (nPos ≤ params.length) &&
  kwargs.all (fun k => params.contains k) &&
  kwargs.all (fun k => decide (nPos ≤ params.indexOf k)) &&
  (params.drop nPos).all (fun p => kwargs.contains p)

/-- The parameters of `ConflictDetector.__init__` in
`remote_office_sync/conflict.py` (lines 31-35), excluding `self`. -/
def conflictDetectorInitParams : List String := ["previous_state", "current_state"]

/-- Configuration view consumed by the reconciler, mirroring the accessors
of `Config` in `remote_office_sync/config_loader.py`.  A `none` raw field
models an absent key in the YAML mapping.  (An explicit YAML `null` for
`max_size_mb` makes the source raise `TypeError` inside
`soft_delete_max_size_bytes` and is outside this model.) -/
structure Config where
  left_root : String
  right_root : String
  soft_delete_enabled_raw : Option Bool := none
  soft_delete_max_size_mb_raw : Option Int := none
  conflict_policy_modify_modify_raw : Option String := none
  conflict_policy_new_new_raw : Option String := none
  conflict_policy_metadata_conflict_raw : Option String := none
deriving Repr, DecidableEq

/-- Mirrors `Config.soft_delete_enabled`: `.get("enabled", True)`. -/
def Config.soft_delete_enabled (c : Config) : Bool :=
  c.soft_delete_enabled_raw.getD true

/-- Mirrors `Config.soft_delete_max_size_mb` (config_loader.py lines 50-53):
`.get("max_size_mb", 20)` - an absent key yields the default 20, not None. -/
def Config.soft_delete_max_size_mb (c : Config) : Int :=
  c.soft_delete_max_size_mb_raw.getD 20

/-- Mirrors `Config.soft_delete_max_size_bytes` (config_loader.py lines
55-58): megabytes times 1024 * 1024, wrapped in the optional type the rule
table tests against `is None`.  On the modelled (non-null) configurations
the source always returns a number, so the result is always `some`. -/
def Config.soft_delete_max_size_bytes (c : Config) : Option Int :=
  some (c.soft_delete_max_size_mb * 1024 * 1024)

/-- Mirrors `SyncEngine.__init__` (sync_logic.py lines 52-77) up to its
`ConflictDetector` invocation: the constructor calls
`ConflictDetector(previous_state, current_state, mtime_tolerance,
left_root=..., right_root=...)`, three positional arguments plus two
keywords, which must bind against `conflictDetectorInitParams`. -/
def syncEngineInit (config : Config) (previous_state current_state : List (String × FileMetadata))
    (mtime_tolerance : Rat) : Except String Unit :=
  let _ := config
  let _ := previous_state
  let _ := current_state
  let _ := mtime_tolerance
  if pyCallBindsOk conflictDetectorInitParams 3 ["left_root", "right_root"] then
    Except.ok ()
  else
    Except.error "TypeError"

/-! ## Claim C1: tolerance in mtime comparisons -/

/-- A concrete unified view: both sides exist, equal sizes, mtimes 100 and
101 - within the tolerance 2.0 that the engine is constructed with. -/
def c1Meta : FileMetadata :=
  { relative_path := "a.txt", exists_left := true, exists_right := true,
    mtime_left := some 100, mtime_right := some 101,
    size_left := some 10, size_right := some 10 }

/-- C1 counterexample: a pair of side views with equal sizes whose mtimes
differ by 1, well within the tolerance 2; the claim says the same-content
heuristic must deem them identical, but the code compares mtimes for exact
equality and reports them different. -/
theorem c1_tolerance_counterexample :
    isSameContent c1Meta = false ∧
    c1Meta.exists_left = true ∧ c1Meta.exists_right = true ∧
    c1Meta.size_left = c1Meta.size_right ∧
    |orZero c1Meta.mtime_left - orZero c1Meta.mtime_right| ≤ 2 := by
  refine ⟨by decide, rfl, rfl, rfl, by norm_num [c1Meta, orZero]⟩

/-- C1 amended: the mtime comparisons ignore the tolerance entirely.  A side
counts as changed iff its current mtime (missing read as 0) strictly exceeds
its previous mtime; the deletion rule treats a side as unchanged iff the
optional mtimes are exactly equal; and the same-content heuristic deems two
side views identical iff both exist with exactly equal sizes and exactly
equal mtimes. -/
theorem c1_amended_no_tolerance (m prev curr : FileMetadata) :
    (isSameContent m = true ↔
      m.exists_left = true ∧ m.exists_right = true ∧
      m.size_left = m.size_right ∧ m.mtime_left = m.mtime_right) ∧
    (leftChangedRule (some prev) curr = true ↔
      orZero prev.mtime_left < orZero curr.mtime_left) ∧
    (rightChangedRule (some prev) curr = true ↔
      orZero prev.mtime_right < orZero curr.mtime_right) ∧
    (deletionUnchangedLeft prev curr = true ↔ prev.mtime_left = curr.mtime_left) := by
  refine ⟨?_, ?_, ?_, ?_⟩
  · unfold isSameContent
    cases hl : m.exists_left <;> cases hr : m.exists_right <;>
      simp [hl, hr, Bool.and_eq_true, beq_iff_eq]
  · unfold leftChangedRule
    simp [gt_iff_lt]
  · unfold rightChangedRule
    simp [gt_iff_lt]
  · unfold deletionUnchangedLeft
    simp [beq_iff_eq]

/-! ## Claim C2: SyncEngine construction raises TypeError -/

/-- C2: for every configuration, previous state, current state and
tolerance, constructing the reconciler fails with a TypeError, because
`SyncEngine.__init__` passes `ConflictDetector` three positional arguments
and two unexpected keywords while its `__init__` accepts only
`previous_state` and `current_state`. -/
theorem c2_sync_engine_init_type_error
    (config : Config) (previous_state current_state : List (String × FileMetadata))
    (mtime_tolerance : Rat) :
    syncEngineInit config previous_state current_state mtime_tolerance =
      Except.error "TypeError" := by
  rfl

/-! ## Path helpers (pathlib semantics used by the executor) -/

/-- Characters of the basename of a relative path: everything after the
last forward slash, mirroring `pathlib.Path.name` on normalized relative
paths. -/
def basenameChars (cs : List Char) : List Char :=
  cs.foldl (fun acc c => if c = '/' then [] else acc ++ [c]) []

/-- Basename of a relative path (string wrapper of `basenameChars`). -/
def basename (p : String) : String := ⟨basenameChars p.toList⟩

/-- Characters of the parent directory of a relative path: everything
before the last slash, empty when there is no slash. -/
def parentChars (cs : List Char) : List Char :=
  (cs.reverse.dropWhile (fun c => c ≠ '/')).drop 1 |>.reverse

/-- Parent directory of a relative path, empty for a bare filename. -/
def parentDir (p : String) : String := ⟨parentChars p.toList⟩

/-- Split a basename into Python `Path.stem` / `Path.suffix`: the suffix
starts at the last dot, except that a dot at position 0 (hidden files) or
no dot at all yields an empty suffix. -/
def splitStemSuffix (b : String) : String × String :=
  let cs := b.toList
  if cs.reverse.contains '.' then
    let i := cs.length - 1 - cs.reverse.indexOf '.'
    if i = 0 then (b, "") else (⟨cs.take i⟩, ⟨cs.drop i⟩)
  else (b, "")

/-- Join a directory and a filename with a slash, collapsing an empty
directory - mirroring how a relative `Path` renders. -/
def joinPath (dir name : String) : String :=
  if dir = "" then name else dir ++ "/" ++ name

/-- Conflict-artifact filename used by `FileOps.create_clash_file`
(file_ops.py lines 238-247) when a username is supplied:
`stem.CONFLICT.username.timestamp` followed by the suffix. -/
def clashName (stem username timestamp suffix : String) : String :=
  stem ++ ".CONFLICT." ++ username ++ "." ++ timestamp ++ suffix

/-- Relative path of the conflict artifact produced for an original file at
relative path `p`: the artifact lives in the same parent directory. -/
def clashPath (p username timestamp : String) : String :=
  let b := basename p
  let sp := splitStemSuffix b
  joinPath (parentDir p) (clashName sp.1 username timestamp sp.2)

/-! ## Filesystem model for the executor -/

/-- Abstract view of a regular file: an opaque content token and an mtime. -/
structure FsFile where
  content : Nat
  mtime : Rat
deriving Repr, DecidableEq

/-- One side of the tree: an association list from relative path to file. -/
abbrev Fs := List (String × FsFile)

/-- Dictionary lookup on a side. -/
def fsLookup (fs : Fs) (p : String) : Option FsFile :=
  (fs.find? (fun e => e.1 == p)).map Prod.snd

/-- Writing a file: update the entry in place if the path exists, append
otherwise (Python dict / filesystem overwrite semantics; keys are unique
in every state the executor constructs). -/
def fsInsert : Fs → String → FsFile → Fs
  | [], p, f => [(p, f)]
  | e :: rest, p, f => if e.1 == p then (p, f) :: rest else e :: fsInsert rest p f

/-- Mirrors `FileOps.create_clash_file` (file_ops.py lines 214-256) on one
side: fails (FileOpsError) when the original is missing, otherwise copies
it - content and mtime preserved by `shutil.copy2` - to the conflict name
in the same directory, returning the updated side and the artifact path. -/
def createClashFile (fs : Fs) (p username timestamp : String) :
    Except Unit (Fs × String) :=
  match fsLookup fs p with
  | none => Except.error ()
  | some f =>
    let cp := clashPath p username timestamp
    Except.ok (fsInsert fs cp f, cp)

/-- Mirrors `FileOps.copy_file` across the two sides (file_ops.py lines
74-126): fails when the source is missing, otherwise writes the source file
(content and mtime, via `shutil.copy2`) at the destination path. -/
def copyFile (src : Fs) (sp : String) (dst : Fs) (dp : String) : Except Unit Fs :=
  match fsLookup src sp with
  | none => Except.error ()
  | some f => Except.ok (fsInsert dst dp f)

/-- A conflict alert as collected by the runner (email_notifications.py),
restricted to the fields the CLASH_CREATE branch populates. -/
structure ConflictAlert where
  file_path : String
  left_mtime : Option Rat
  right_mtime : Option Rat
  left_size : Option Int
  right_size : Option Int
deriving Repr, DecidableEq

/-- Outcome of executing one CLASH_CREATE job: the two trees, the conflict
alerts recorded, the `content_conflicts_detected` flag, and the boolean the
executor returns. -/
structure ClashResult where
  left : Fs
  right : Fs
  alerts : List ConflictAlert
  conflictsFlag : Bool
  success : Bool
deriving Repr, DecidableEq

/-- Mirrors the `SyncAction.CLASH_CREATE` branch of
`SyncRunner._execute_job` (main.py lines 277-318).  The branch re-loads the
stored snapshot database and looks the job path up there; when the record
is missing or does not claim both sides, the whole block is skipped and the
job still returns `True`.  Otherwise the side with the smaller recorded
mtime is treated as older: the artifact is created from it on that side
only, and the newer side is copied over it.  A `FileOpsError` from either
file operation is caught at the end of `_execute_job` and yields `False`,
keeping any partial changes. -/
def execClashCreate (stateDb : List (String × FileMetadata)) (left right : Fs)
    (file_path username timestamp : String) : ClashResult :=
  match (stateDb.find? (fun e => e.1 == file_path)).map Prod.snd with
  | none => ⟨left, right, [], false, true⟩
  | some current =>
    if current.exists_left && current.exists_right then
      let left_mtime := orZero current.mtime_left
      let right_mtime := orZero current.mtime_right
      let alert : ConflictAlert :=
        ⟨file_path, current.mtime_left, current.mtime_right,
          current.size_left, current.size_right⟩
      if left_mtime > right_mtime then
        match createClashFile right file_path username timestamp with
        | Except.error _ => ⟨left, right, [], false, false⟩
        | Except.ok (right1, _) =>
          match copyFile left file_path right1 file_path with
          | Except.error _ => ⟨left, right1, [], false, false⟩
          | Except.ok right2 => ⟨left, right2, [alert], true, true⟩
      else
        match createClashFile left file_path username timestamp with
        | Except.error _ => ⟨left, right, [], false, false⟩
        | Except.ok (left1, _) =>
          match copyFile right file_path left1 file_path with
          | Except.error _ => ⟨left1, right, [], false, false⟩
          | Except.ok left2 => ⟨left2, right, [alert], true, true⟩
    else ⟨left, right, [], false, true⟩

/-! ## Lookup and insert lemmas for the filesystem model -/

theorem fsLookup_fsInsert_self (fs : Fs) (p : String) (f : FsFile) :
    fsLookup (fsInsert fs p f) p = some f := by
  induction fs with
  | nil => simp [fsInsert, fsLookup, List.find?]
  | cons hd tl ih =>
    by_cases h : hd.1 == p
    · simp [fsInsert, fsLookup, List.find?, h]
    · have h' : (hd.1 == p) = false := by simpa using h
      simpa [fsInsert, fsLookup, List.find?, h'] using ih

theorem fsLookup_fsInsert_ne (fs : Fs) (p q : String) (f : FsFile) (hne : q ≠ p) :
    fsLookup (fsInsert fs p f) q = fsLookup fs q := by
  have hpq : (p == q) = false := by
    simp only [beq_eq_false_iff_ne, ne_eq]
    exact fun hc => hne hc.symm
  induction fs with
  | nil => simp [fsInsert, fsLookup, List.find?, hpq]
  | cons hd tl ih =>
    by_cases h : hd.1 == p
    · have hdp : hd.1 = p := by simpa using h
      have hdq : (hd.1 == q) = false := by
        simpa [hdp] using hpq
      simp [fsInsert, fsLookup, List.find?, h, hpq, hdq]
    · have h' : (hd.1 == p) = false := by simpa using h
      by_cases hdq : hd.1 == q
      · simp [fsInsert, fsLookup, List.find?, h', hdq]
      · have hdq' : (hd.1 == q) = false := by simpa using hdq
        simpa [fsInsert, fsLookup, List.find?, h', hdq'] using ih

/-! ## Claim C4: ClashCreate with no snapshot record -/

/-- C4: executing a ClashCreate job for a path that has no record in the
stored snapshot database changes neither side, writes no artifact, records
no conflict alert, leaves the second-sync flag unset, and still reports the
job as successful. -/
theorem c4_missing_record_silent_success
    (stateDb : List (String × FileMetadata)) (left right : Fs)
    (file_path username timestamp : String)
    (hdb : stateDb.find? (fun e => e.1 == file_path) = none) :
    execClashCreate stateDb left right file_path username timestamp =
      ⟨left, right, [], false, true⟩ := by
  unfold execClashCreate
  rw [hdb]
  rfl

/-- Witness for C4 at a concrete first-run input: empty snapshot database,
a new-new pair present on both sides. -/
theorem c4_missing_record_witness :
    ([] : List (String × FileMetadata)).find? (fun e => e.1 == "a.txt") = none ∧
    execClashCreate [] [("a.txt", ⟨1, 100⟩)] [("a.txt", ⟨2, 100⟩)] "a.txt" "u" "T" =
      ⟨[("a.txt", ⟨1, 100⟩)], [("a.txt", ⟨2, 100⟩)], [], false, true⟩ :=
  ⟨by decide,
    c4_missing_record_silent_success [] [("a.txt", ⟨1, 100⟩)] [("a.txt", ⟨2, 100⟩)]
      "a.txt" "u" "T" (by decide)⟩

/-! ## Claim C3: ClashCreate artifact placement -/

/-- Snapshot record for the C3 counterexample: `a.txt` on both sides,
left recorded newer (mtime 200) than right (mtime 100). -/
def c3Record : FileMetadata :=
  { relative_path := "a.txt", exists_left := true, exists_right := true,
    mtime_left := some 200, mtime_right := some 100,
    size_left := some 10, size_right := some 20 }

/-- C3 counterexample: executing ClashCreate on `a.txt` (present on both
sides, left newer) reports success and leaves the conflict artifact on the
right side only - the left tree has no artifact after execution,
contradicting the claim that an identical artifact exists on both sides. -/
theorem c3_artifact_one_side_counterexample :
    (execClashCreate [("a.txt", c3Record)]
        [("a.txt", ⟨1, 200⟩)] [("a.txt", ⟨2, 100⟩)] "a.txt" "u" "T").success = true ∧
    fsLookup (execClashCreate [("a.txt", c3Record)]
        [("a.txt", ⟨1, 200⟩)] [("a.txt", ⟨2, 100⟩)] "a.txt" "u" "T").right
      "a.CONFLICT.u.T.txt" = some ⟨2, 100⟩ ∧
    fsLookup (execClashCreate [("a.txt", c3Record)]
        [("a.txt", ⟨1, 200⟩)] [("a.txt", ⟨2, 100⟩)] "a.txt" "u" "T").left
      "a.CONFLICT.u.T.txt" = none := by
  refine ⟨by decide, by decide, by decide⟩

/-- C3 amended: when the snapshot record claims both sides and records the
left side strictly newer, a successful ClashCreate writes the conflict
artifact (a copy of the older right version) on the right side only, then
overwrites the right main file with the newer left content; the left tree
is untouched by the action, and the artifact reaches it only through the
second sync cycle that the runner triggers afterwards. -/
theorem c3_amended_artifact_older_side_only
    (stateDb : List (String × FileMetadata)) (left right : Fs)
    (file_path username timestamp : String) (current : FileMetadata) (fl fr : FsFile)
    (hdb : (stateDb.find? (fun e => e.1 == file_path)).map Prod.snd = some current)
    (hexl : current.exists_left = true) (hexr : current.exists_right = true)
    (hnewer : orZero current.mtime_right < orZero current.mtime_left)
    (hfl : fsLookup left file_path = some fl)
    (hfr : fsLookup right file_path = some fr)
    (hcp : clashPath file_path username timestamp ≠ file_path) :
    (execClashCreate stateDb left right file_path username timestamp).success = true ∧
    (execClashCreate stateDb left right file_path username timestamp).left = left ∧
    fsLookup (execClashCreate stateDb left right file_path username timestamp).right
      (clashPath file_path username timestamp) = some fr ∧
    fsLookup (execClashCreate stateDb left right file_path username timestamp).right
      file_path = some fl := by
  unfold execClashCreate
  rw [hdb]
  simp only [hexl, hexr, Bool.and_self, if_true]
  rw [if_pos (by exact_mod_cast hnewer)]
  unfold createClashFile
  rw [hfr]
  unfold copyFile
  rw [hfl]
  refine ⟨rfl, rfl, ?_, ?_⟩
  · simp only
    rw [fsLookup_fsInsert_ne _ _ _ _ hcp, fsLookup_fsInsert_self]
  · simp only
    rw [fsLookup_fsInsert_self]

/-- Witness for the amended C3 theorem at the concrete counterexample input. -/
theorem c3_amended_witness :
    ((([("a.txt", c3Record)] : List (String × FileMetadata)).find?
        (fun e => e.1 == "a.txt")).map Prod.snd = some c3Record ∧
      c3Record.exists_left = true ∧ c3Record.exists_right = true ∧
      orZero c3Record.mtime_right < orZero c3Record.mtime_left ∧
      fsLookup [("a.txt", ⟨1, 200⟩)] "a.txt" = some ⟨1, 200⟩ ∧
      fsLookup [("a.txt", ⟨2, 100⟩)] "a.txt" = some ⟨2, 100⟩ ∧
      clashPath "a.txt" "u" "T" ≠ "a.txt") ∧
    ((execClashCreate [("a.txt", c3Record)]
        [("a.txt", ⟨1, 200⟩)] [("a.txt", ⟨2, 100⟩)] "a.txt" "u" "T").left =
      [("a.txt", ⟨1, 200⟩)]) :=
  ⟨⟨by decide, by decide, by decide, by decide, by decide, by decide, by decide⟩,
    (c3_amended_artifact_older_side_only [("a.txt", c3Record)]
      [("a.txt", ⟨1, 200⟩)] [("a.txt", ⟨2, 100⟩)] "a.txt" "u" "T" c3Record
      ⟨1, 200⟩ ⟨2, 100⟩ (by decide) (by decide) (by decide) (by decide)
      (by decide) (by decide) (by decide)).2.1⟩

/-! ## Claim C5: ClashCreate tie-break -/

/-- Snapshot record for the C5 counterexample: equal recorded mtimes. -/
def c5Record : FileMetadata :=
  { relative_path := "a.txt", exists_left := true, exists_right := true,
    mtime_left := some 100, mtime_right := some 100,
    size_left := some 10, size_right := some 20 }

/-- C5 counterexample: with exactly equal recorded mtimes the executor
takes the right-is-newer branch: the left main file ends with the right
content of the right version (not of the left), and the left version becomes the
conflict artifact - contradicting the claim that the left version wins. -/
theorem c5_tie_counterexample :
    fsLookup (execClashCreate [("a.txt", c5Record)]
        [("a.txt", ⟨1, 100⟩)] [("a.txt", ⟨2, 100⟩)] "a.txt" "u" "T").left
      "a.txt" = some ⟨2, 100⟩ ∧
    fsLookup (execClashCreate [("a.txt", c5Record)]
        [("a.txt", ⟨1, 100⟩)] [("a.txt", ⟨2, 100⟩)] "a.txt" "u" "T").left
      "a.txt" ≠ some ⟨1, 100⟩ ∧
    fsLookup (execClashCreate [("a.txt", c5Record)]
        [("a.txt", ⟨1, 100⟩)] [("a.txt", ⟨2, 100⟩)] "a.txt" "u" "T").left
      "a.CONFLICT.u.T.txt" = some ⟨1, 100⟩ := by
  refine ⟨by decide, by decide, by decide⟩

/-- C5 amended: when the recorded mtimes are exactly equal the right
version wins: the left version is saved as the conflict artifact on the
left side, the right content overwrites the left main file, and the right
tree is untouched by the action. -/
theorem c5_amended_tie_right_wins
    (stateDb : List (String × FileMetadata)) (left right : Fs)
    (file_path username timestamp : String) (current : FileMetadata) (fl fr : FsFile)
    (hdb : (stateDb.find? (fun e => e.1 == file_path)).map Prod.snd = some current)
    (hexl : current.exists_left = true) (hexr : current.exists_right = true)
    (heq : orZero current.mtime_left = orZero current.mtime_right)
    (hfl : fsLookup left file_path = some fl)
    (hfr : fsLookup right file_path = some fr)
    (hcp : clashPath file_path username timestamp ≠ file_path) :
    (execClashCreate stateDb left right file_path username timestamp).success = true ∧
    (execClashCreate stateDb left right file_path username timestamp).right = right ∧
    fsLookup (execClashCreate stateDb left right file_path username timestamp).left
      (clashPath file_path username timestamp) = some fl ∧
    fsLookup (execClashCreate stateDb left right file_path username timestamp).left
      file_path = some fr := by
  unfold execClashCreate
  rw [hdb]
  simp only [hexl, hexr, Bool.and_self, if_true]
  rw [if_neg (by rw [heq]; exact lt_irrefl _)]
  unfold createClashFile
  rw [hfl]
  unfold copyFile
  rw [hfr]
  refine ⟨rfl, rfl, ?_, ?_⟩
  · simp only
    rw [fsLookup_fsInsert_ne _ _ _ _ hcp, fsLookup_fsInsert_self]
  · simp only
    rw [fsLookup_fsInsert_self]

/-- Witness for the amended C5 theorem at the concrete tie input. -/
theorem c5_amended_witness :
    ((([("a.txt", c5Record)] : List (String × FileMetadata)).find?
        (fun e => e.1 == "a.txt")).map Prod.snd = some c5Record ∧
      orZero c5Record.mtime_left = orZero c5Record.mtime_right ∧
      clashPath "a.txt" "u" "T" ≠ "a.txt") ∧
    ((execClashCreate [("a.txt", c5Record)]
        [("a.txt", ⟨1, 100⟩)] [("a.txt", ⟨2, 100⟩)] "a.txt" "u" "T").right =
      [("a.txt", ⟨2, 100⟩)]) :=
  ⟨⟨by decide, by decide, by decide⟩,
    (c5_amended_tie_right_wins [("a.txt", c5Record)]
      [("a.txt", ⟨1, 100⟩)] [("a.txt", ⟨2, 100⟩)] "a.txt" "u" "T" c5Record
      ⟨1, 100⟩ ⟨2, 100⟩ (by decide) (by decide) (by decide) (by decide)
      (by decide) (by decide) (by decide)).2.1⟩

/-! ## Sync actions and the per-path rule table -/

/-- The `SyncAction` enumeration of `remote_office_sync/sync_logic.py`
(lines 16-34), reproduced constructor for constructor.  Note that it has no
attribute-synchronisation variants. -/
inductive SyncAction where
  | copy_left_to_right
  | copy_right_to_left
  | delete_left
  | delete_right
  | soft_delete_left
  | soft_delete_right
  | clash_create
  | case_conflict
  | rename_left
  | rename_right
  | rename_conflict
  | create_dir_left
  | create_dir_right
  | delete_dir_left
  | delete_dir_right
  | noop
deriving Repr, DecidableEq

/-- Mirrors the `SyncJob` dataclass (sync_logic.py lines 37-46), without
the opaque payload field (modelled separately for the case-conflict
executor). -/
structure SyncJob where
  action : SyncAction
  file_path : String
  src_path : Option String := none
  dst_path : Option String := none
  details : Option String := none
deriving Repr, DecidableEq

/-- The soft-delete gate of the rule table (sync_logic.py lines 767-770 and
811-814): soft delete is chosen over hard delete iff soft delete is enabled
and the configured byte cap is None or at least the removed version
recorded size (missing size read as 0). -/
def softDeleteGate (cfg : Config) (removedSize : Option Int) : Bool :=
  cfg.soft_delete_enabled &&
    (match cfg.soft_delete_max_size_bytes with
     | none => true
     | some b => decide (removedSize.getD 0 ≤ b))

/-- Mirrors `SyncEngine._apply_sync_rules` (sync_logic.py lines 714-878):
the deterministic per-path rule table applied to unclaimed paths. -/
def applySyncRules (cfg : Config) (file_path : String)
    (prev? : Option FileMetadata) (curr : FileMetadata) : List SyncJob :=
  if curr.is_directory then
    if curr.exists_left && !curr.exists_right then
      [{ action := .create_dir_right, file_path,
         details := some "New empty directory on left" }]
    else if curr.exists_right && !curr.exists_left then
      [{ action := .create_dir_left, file_path,
         details := some "New empty directory on right" }]
    else []
  else if curr.exists_left && !curr.exists_right then
    match prev? with
    | none =>
      [{ action := .copy_left_to_right, file_path,
         details := some "New file on left" }]
    | some prev =>
      if prev.exists_right && !curr.exists_right then
        if deletionUnchangedLeft prev curr then
          if softDeleteGate cfg prev.size_right then
            [{ action := .soft_delete_left, file_path,
               details := some "Deleted on right (unchanged on left)" }]
          else
            [{ action := .delete_left, file_path,
               details := some "Deleted on right (unchanged on left)" }]
        else
          [{ action := .copy_left_to_right, file_path,
             details := some "Deleted on right but changed on left" }]
      else []
  else if curr.exists_right && !curr.exists_left then
    match prev? with
    | none =>
      [{ action := .copy_right_to_left, file_path,
         details := some "New file on right" }]
    | some prev =>
      if prev.exists_left && !curr.exists_left then
        if deletionUnchangedRight prev curr then
          if softDeleteGate cfg prev.size_left then
            [{ action := .soft_delete_right, file_path,
               details := some "Deleted on left (unchanged on right)" }]
          else
            [{ action := .delete_right, file_path,
               details := some "Deleted on left (unchanged on right)" }]
        else
          [{ action := .copy_right_to_left, file_path,
             details := some "Deleted on left but changed on right" }]
      else []
  else if curr.exists_left && curr.exists_right then
    let left_changed := leftChangedRule prev? curr
    let right_changed := rightChangedRule prev? curr
    if left_changed && !right_changed then
      [{ action := .copy_left_to_right, file_path,
         details := some "Changed only on left" }]
    else if right_changed && !left_changed then
      [{ action := .copy_right_to_left, file_path,
         details := some "Changed only on right" }]
    else []
  else []

/-! ## Claim C6: attribute-only changes -/

/-- Snapshot entry for the attribute scenario of the spec: `doc.txt` on both
sides, attrs 0 on both, identical mtime and size. -/
def c6Prev : FileMetadata :=
  { relative_path := "doc.txt", exists_left := true, exists_right := true,
    mtime_left := some 100, mtime_right := some 100,
    size_left := some 5, size_right := some 5,
    attrs_left := some 0, attrs_right := some 0 }

/-- Current entry for the attribute scenario: identical mtimes and sizes,
but the left attribute bitmask changed to 0x02. -/
def c6Curr : FileMetadata :=
  { relative_path := "doc.txt", exists_left := true, exists_right := true,
    mtime_left := some 100, mtime_right := some 100,
    size_left := some 5, size_right := some 5,
    attrs_left := some 2, attrs_right := some 0 }

/-- A default configuration with both policies and soft delete untouched. -/
def c6Config : Config := { left_root := "/left", right_root := "/right" }

/-- C6: on the attribute-only scenario of the spec the rule table emits no job
at all - in particular no attribute synchronisation - because the code
compares only mtimes and the `SyncAction` enumeration has no
attribute-synchronisation variants. -/
theorem c6_attribute_change_no_job :
    applySyncRules c6Config "doc.txt" (some c6Prev) c6Curr = [] ∧
    c6Curr.attrs_left ≠ c6Curr.attrs_right := by
  refine ⟨by decide, by decide⟩

/-! ## Claim C7: soft-delete size cap when max_size_mb is absent -/

/-- Configuration with soft delete enabled and `max_size_mb` absent. -/
def c7Config : Config :=
  { left_root := "/left", right_root := "/right",
    soft_delete_enabled_raw := some true,
    soft_delete_max_size_mb_raw := none }

/-- Snapshot entry for the C7 scenario: a 30 MiB file on both sides. -/
def c7Prev : FileMetadata :=
  { relative_path := "big.bin", exists_left := true, exists_right := true,
    mtime_left := some 50, mtime_right := some 50,
    size_left := some 31457280, size_right := some 31457280 }

/-- Current entry for the C7 scenario: deleted on right, unchanged left. -/
def c7Curr : FileMetadata :=
  { relative_path := "big.bin", exists_left := true, exists_right := false,
    mtime_left := some 50, size_left := some 31457280 }

/-- C7: with `max_size_mb` absent the accessor yields the default 20 MiB
cap rather than None, so a 30 MiB deletion that the rule table routes to
deletion is HARD-deleted - the claim (and the config
tests) say an absent cap means no size limit. -/
theorem c7_absent_cap_defaults_to_twenty_mb :
    c7Config.soft_delete_max_size_bytes = some 20971520 ∧
    softDeleteGate c7Config c7Prev.size_right = false ∧
    applySyncRules c7Config "big.bin" (some c7Prev) c7Curr =
      [{ action := .delete_left, file_path := "big.bin",
         details := some "Deleted on right (unchanged on left)" }] := by
  refine ⟨by decide, by decide, by decide⟩

/-! ## Claim C8: soft-delete quarantine location -/

/-- Mirrors `FileOps._soft_delete` (file_ops.py lines 162-186): the
destination is `soft_delete_root / (timestamp + "_" + basename)`, where
`soft_delete_root` is the string the `FileOps` instance was constructed
with. -/
def softDeleteDest (soft_delete_root p timestamp : String) : String :=
  joinPath soft_delete_root (timestamp ++ "_" ++ basename p)

/-- The quarantine root the runner passes to `FileOps` (main.py line 60):
the bare relative string `.deleted`, resolved against the process working
directory - not against either sync root. -/
def runnerSoftDeleteRoot : String := ".deleted"

theorem slash_not_mem_basename_fold (cs acc : List Char) (h : '/' ∉ acc) :
    '/' ∉ cs.foldl (fun acc c => if c = '/' then [] else acc ++ [c]) acc := by
  induction cs generalizing acc with
  | nil => exact h
  | cons c rest ih =>
    by_cases hc : c = '/'
    · simpa [hc] using ih [] (by simp)
    · have hacc : '/' ∉ acc ++ [c] := by
        simp only [List.mem_append, List.mem_singleton]
        rintro (hmem | hmem)
        · exact h hmem
        · exact hc hmem.symm
      simpa [hc] using ih (acc ++ [c]) hacc

theorem basename_contains_no_slash (p : String) :
    ((basename p).toList.contains '/') = false := by
  cases hc : (basename p).toList.contains '/' with
  | false => rfl
  | true =>
    have hmem : '/' ∈ (basename p).toList := by
      simpa using hc
    have : '/' ∉ basenameChars p.toList :=
      slash_not_mem_basename_fold p.toList [] (by simp)
    exact absurd (by simpa [basename] using hmem) this

/-- Concrete soft-deleted file for C8: `sub/b.bin` under the root `left`,
so the executor passes the joined path `left/sub/b.bin` to `delete_file`. -/
def c8Timestamp : String := "20250102_030405"

/-- C8 counterexample: the quarantined copy of `left/sub/b.bin` lands at
`.deleted/20250102_030405_b.bin` relative to the working directory, not at
`left/.deleted/20250102_030405_b.bin` inside the root of the deleted file
as the claim requires. -/
theorem c8_quarantine_location_counterexample :
    softDeleteDest runnerSoftDeleteRoot "left/sub/b.bin" c8Timestamp =
      ".deleted/20250102_030405_b.bin" ∧
    (softDeleteDest runnerSoftDeleteRoot "left/sub/b.bin" c8Timestamp ==
      "left/.deleted/20250102_030405_b.bin") = false := by
  refine ⟨by decide, by decide⟩

/-- C8 amended: every executed soft delete moves the file into the single
quarantine directory `.deleted/` that the runner configures - resolved
against the process working directory and shared by both roots, not placed
inside the root of the deleted file - under the name
`YYYYMMDD_HHMMSS_<basename>`, with no subtree structure preserved (the
basename carries no directory separator). -/
theorem c8_amended_quarantine_is_cwd_relative (p timestamp : String) :
    softDeleteDest runnerSoftDeleteRoot p timestamp =
      runnerSoftDeleteRoot ++ "/" ++ timestamp ++ "_" ++ basename p ∧
    ((basename p).toList.contains '/') = false := by
  constructor
  · unfold softDeleteDest joinPath runnerSoftDeleteRoot
    rw [if_neg (by decide)]
    simp [String.append_assoc]
  · exact basename_contains_no_slash p

/-! ## Claim C9: case-conflict tie-break -/

/-- The payload captured by `SyncEngine._handle_case_conflict`
(sync_logic.py lines 543-557) and consumed by the CASE_CONFLICT branch of
the executor: optional snapshot mtimes and content for the two variants. -/
structure CaseConflictPayload where
  left_mtime : Option Rat := none
  right_mtime : Option Rat := none
  left_bytes : Option Nat := none
  right_bytes : Option Nat := none
deriving Repr, DecidableEq

/-- The mtime the CASE_CONFLICT branch works with (main.py lines 375-387):
the payload value when captured, else the live stat, else 0. -/
def effectiveMtime (fs : Fs) (p : String) (cached : Option Rat) : Rat :=
  match cached with
  | some v => v
  | none =>
    match fsLookup fs p with
    | some f => f.mtime
    | none => 0

/-- Mirrors `_resolve_bytes` in the CASE_CONFLICT branch (main.py lines
393-402): cached payload bytes when present, else the live file content,
else `None` (which the branch turns into a `FileOpsError`). -/
def resolveBytes (fs : Fs) (p : String) (cached : Option Nat) : Option Nat :=
  match cached with
  | some b => some b
  | none => (fsLookup fs p).map FsFile.content

/-- The decision outputs of the CASE_CONFLICT branch: which side wins,
which casing becomes canonical on both sides, and the stem, suffix, content
and mtime used for the conflict artifact. -/
structure CaseConflictPlan where
  winner_is_left : Bool
  canonical_path : String
  conflict_stem : String
  conflict_suffix : String
  older_bytes : Option Nat
  older_mtime : Rat
deriving Repr, DecidableEq

/-- Mirrors the decision logic of the CASE_CONFLICT branch of
`SyncRunner._execute_job` (main.py lines 404-471): `winner_is_left` is
`left_mtime > right_mtime`, overridden to `True` on exact equality; the
casing of the winner becomes canonical on both sides, and the loser supplies the
stem, suffix, bytes and mtime of the conflict artifact.  The filesystem
mutations (copy, temp-hop rename, artifact write) consume exactly these
outputs. -/
def caseConflictPlan (leftFs rightFs : Fs) (file_path src_path : String)
    (payload : CaseConflictPayload) : CaseConflictPlan :=
  let left_mtime := effectiveMtime leftFs file_path payload.left_mtime
  let right_mtime := effectiveMtime rightFs src_path payload.right_mtime
  let winner0 := decide (left_mtime > right_mtime)
  let winner_is_left := if left_mtime == right_mtime then true else winner0
  if winner_is_left then
    let sp := splitStemSuffix (basename src_path)
    { winner_is_left := true, canonical_path := file_path,
      conflict_stem := sp.1, conflict_suffix := sp.2,
      older_bytes := resolveBytes rightFs src_path payload.right_bytes,
      older_mtime := right_mtime }
  else
    let sp := splitStemSuffix (basename file_path)
    { winner_is_left := false, canonical_path := src_path,
      conflict_stem := sp.1, conflict_suffix := sp.2,
      older_bytes := resolveBytes leftFs file_path payload.left_bytes,
      older_mtime := left_mtime }

/-- C9: when the captured mtimes of the two case variants are exactly equal the
left casing wins - the left variant stays canonical and the right variant
supplies the name and content of the conflict artifact; otherwise the variant
with the strictly newer mtime wins and the other becomes the artifact. -/
theorem c9_case_conflict_tie_break (leftFs rightFs : Fs)
    (file_path src_path : String) (payload : CaseConflictPayload) :
    (effectiveMtime leftFs file_path payload.left_mtime =
        effectiveMtime rightFs src_path payload.right_mtime →
      (caseConflictPlan leftFs rightFs file_path src_path payload).winner_is_left = true ∧
      (caseConflictPlan leftFs rightFs file_path src_path payload).canonical_path = file_path ∧
      (caseConflictPlan leftFs rightFs file_path src_path payload).older_bytes =
        resolveBytes rightFs src_path payload.right_bytes ∧
      (caseConflictPlan leftFs rightFs file_path src_path payload).conflict_stem =
        (splitStemSuffix (basename src_path)).1) ∧
    (effectiveMtime rightFs src_path payload.right_mtime <
        effectiveMtime leftFs file_path payload.left_mtime →
      (caseConflictPlan leftFs rightFs file_path src_path payload).winner_is_left = true ∧
      (caseConflictPlan leftFs rightFs file_path src_path payload).canonical_path = file_path ∧
      (caseConflictPlan leftFs rightFs file_path src_path payload).older_bytes =
        resolveBytes rightFs src_path payload.right_bytes) ∧
    (effectiveMtime leftFs file_path payload.left_mtime <
        effectiveMtime rightFs src_path payload.right_mtime →
      (caseConflictPlan leftFs rightFs file_path src_path payload).winner_is_left = false ∧
      (caseConflictPlan leftFs rightFs file_path src_path payload).canonical_path = src_path ∧
      (caseConflictPlan leftFs rightFs file_path src_path payload).older_bytes =
        resolveBytes leftFs file_path payload.left_bytes) := by
  refine ⟨?_, ?_, ?_⟩
  · intro h
    simp [caseConflictPlan, h]
  · intro h
    have hne : effectiveMtime leftFs file_path payload.left_mtime ≠
        effectiveMtime rightFs src_path payload.right_mtime := ne_of_gt h
    simp [caseConflictPlan, hne, h, gt_iff_lt, beq_iff_eq]
  · intro h
    have hne : effectiveMtime leftFs file_path payload.left_mtime ≠
        effectiveMtime rightFs src_path payload.right_mtime := ne_of_lt h
    simp [caseConflictPlan, hne, gt_iff_lt, beq_iff_eq, not_lt.mpr (le_of_lt h)]

/-- Witness for C9 at a concrete tie: payload mtimes both 5. -/
theorem c9_tie_break_witness :
    (effectiveMtime [] "FILE.txt" (some 5) = effectiveMtime [] "File.txt" (some 5)) ∧
    ((caseConflictPlan [] [] "FILE.txt" "File.txt"
        ⟨some 5, some 5, some 1, some 2⟩).winner_is_left = true ∧
      (caseConflictPlan [] [] "FILE.txt" "File.txt"
        ⟨some 5, some 5, some 1, some 2⟩).canonical_path = "FILE.txt" ∧
      (caseConflictPlan [] [] "FILE.txt" "File.txt"
        ⟨some 5, some 5, some 1, some 2⟩).older_bytes =
        resolveBytes [] "File.txt" (some 2) ∧
      (caseConflictPlan [] [] "FILE.txt" "File.txt"
        ⟨some 5, some 5, some 1, some 2⟩).conflict_stem =
        (splitStemSuffix (basename "File.txt")).1) :=
  ⟨by decide,
    (c9_case_conflict_tie_break [] [] "FILE.txt" "File.txt"
      ⟨some 5, some 5, some 1, some 2⟩).1 (by decide)⟩

/-! ## Claim C10: the case-preserving merge keeps every key -/

/-- A raw scan tuple `(mtime, size, attrs)` as produced by
`Scanner.scan_directory` (scanner.py lines 141-206). -/
structure ScanEntry where
  mtime : Rat
  size : Int
  attrs : Nat
deriving Repr, DecidableEq

/-- A single-side scan: an association list from relative path (original
casing preserved) to scan tuple, in insertion order, with unique keys. -/
abbrev ScanMap := List (String × ScanEntry)

/-- Dictionary key-membership test. -/
def hasKey {α : Type} (m : List (String × α)) (k : String) : Bool :=
  m.any (fun e => e.1 == k)

/-- Dictionary value lookup. -/
def scanLookup (m : ScanMap) (k : String) : Option ScanEntry :=
  (m.find? (fun e => e.1 == k)).map Prod.snd

/-- Set membership for the `processed_right` set. -/
def memStr (l : List String) (k : String) : Bool :=
  l.any (fun x => x == k)

/-- Generic dictionary insert: update the first entry with this key in
place, append otherwise (Python dict assignment on unique-key lists). -/
def dictInsert {α : Type} : List (String × α) → String → α → List (String × α)
  | [], k, v => [(k, v)]
  | e :: rest, k, v =>
    match e.1 == k with
    | true => (k, v) :: rest
    | false => e :: dictInsert rest k v

/-- Mirrors `right_lower_to_actual = .. p.lower(): p for p in right_scan ..`
followed by `.get(q)` (scanner.py line 229): a dict comprehension in which
a later key overwrites an earlier one, so the lookup returns the last right
key with the queried lowercase form. -/
def rightLowerLookup (rscan : ScanMap) (q : String) : Option String :=
  (rscan.map Prod.fst).reverse.find? (fun k => k.toLower == q)

/-- Mirrors the matching step of `Scanner.merge_scans` for one left key
(scanner.py lines 236-254): prefer an exact-case right match; otherwise
fall back to the case-insensitive match, refusing it when that right key
has an exact-case twin in the left scan. -/
def leftMatch (lscan rscan : ScanMap) (lp : String) : Option String :=
  if hasKey rscan lp then some lp
  else
    match rightLowerLookup rscan lp.toLower with
    | some pr => if hasKey lscan pr then none else some pr
    | none => none

/-- The canonical entry stored under the casing of the left key (scanner.py
lines 263-280). -/
def canonicalMeta (lscan rscan : ScanMap) (lp : String) (rap? : Option String) :
    FileMetadata :=
  { relative_path := lp, exists_left := true, exists_right := rap?.isSome,
    mtime_left := (scanLookup lscan lp).map ScanEntry.mtime,
    size_left := (scanLookup lscan lp).map ScanEntry.size,
    attrs_left := (scanLookup lscan lp).map ScanEntry.attrs,
    mtime_right := rap?.bind (fun r => (scanLookup rscan r).map ScanEntry.mtime),
    size_right := rap?.bind (fun r => (scanLookup rscan r).map ScanEntry.size),
    attrs_right := rap?.bind (fun r => (scanLookup rscan r).map ScanEntry.attrs) }

/-- The right-only entry used both for case-variant entries (scanner.py
lines 291-302) and for unmatched right keys (lines 305-319). -/
def variantMeta (rscan : ScanMap) (rp : String) : FileMetadata :=
  { relative_path := rp, exists_left := false, exists_right := true,
    mtime_right := (scanLookup rscan rp).map ScanEntry.mtime,
    size_right := (scanLookup rscan rp).map ScanEntry.size,
    attrs_right := (scanLookup rscan rp).map ScanEntry.attrs }

/-- State threaded through the merge loops: the output dictionary and the
`processed_right` set. -/
structure MergeState where
  result : List (String × FileMetadata)
  processed : List String

/-- One iteration of the left loop of `merge_scans` (scanner.py lines
233-302): store the canonical entry under the left casing, mark the matched
right key processed, and add a case-variant entry when the match differs in
case and is not yet present in the output. -/
def mergeLeftStep (lscan rscan : ScanMap) (st : MergeState) (lp : String) : MergeState :=
  match leftMatch lscan rscan lp with
  | some rap =>
    match rap != lp &&
        !(hasKey (dictInsert st.result lp (canonicalMeta lscan rscan lp (some rap))) rap) with
    | true =>
      ⟨dictInsert (dictInsert st.result lp (canonicalMeta lscan rscan lp (some rap))) rap
          (variantMeta rscan rap),
        rap :: st.processed⟩
    | false =>
      ⟨dictInsert st.result lp (canonicalMeta lscan rscan lp (some rap)), rap :: st.processed⟩
  | none => ⟨dictInsert st.result lp (canonicalMeta lscan rscan lp none), st.processed⟩

/-- One iteration of the trailing right loop of `merge_scans` (scanner.py
lines 305-319): right keys not matched by any left key are emitted under
their own casing. -/
def mergeRightStep (rscan : ScanMap) (st : MergeState) (rp : String) : MergeState :=
  match memStr st.processed rp with
  | true => st
  | false => ⟨dictInsert st.result rp (variantMeta rscan rp), st.processed⟩

/-- Mirrors `Scanner.merge_scans` (scanner.py lines 208-322): fold the left
keys, then the right keys, over the empty output. -/
def mergeScans (lscan rscan : ScanMap) : List (String × FileMetadata) :=
  ((rscan.map Prod.fst).foldl (mergeRightStep rscan)
    ((lscan.map Prod.fst).foldl (mergeLeftStep lscan rscan) ⟨[], []⟩)).result

theorem hasKey_cons {α : Type} (e : String × α) (rest : List (String × α)) (a : String) :
    hasKey (e :: rest) a = ((e.1 == a) || hasKey rest a) := by
  simp [hasKey, List.any_cons]

theorem memStr_cons (x : String) (l : List String) (k : String) :
    memStr (x :: l) k = ((x == k) || memStr l k) := by
  simp [memStr, List.any_cons]

theorem hasKey_dictInsert_self {α : Type} (m : List (String × α)) (k : String) (v : α) :
    hasKey (dictInsert m k v) k = true := by
  induction m with
  | nil => simp [dictInsert, hasKey]
  | cons e rest ih =>
    cases hbe : e.1 == k with
    | true => simp [dictInsert, hbe, hasKey, List.any_cons]
    | false =>
      simp only [dictInsert, hbe]
      rw [hasKey_cons]
      simp [ih]

theorem hasKey_dictInsert_mono {α : Type} (m : List (String × α)) (k : String) (v : α)
    (a : String) (h : hasKey m a = true) : hasKey (dictInsert m k v) a = true := by
  induction m with
  | nil => simp [hasKey] at h
  | cons e rest ih =>
    rw [hasKey_cons, Bool.or_eq_true] at h
    rcases h with h1 | h1
    · cases hbe : e.1 == k with
      | true =>
        have hek : e.1 = k := by simpa using hbe
        have hea : e.1 = a := by simpa using h1
        have hka : (k == a) = true := by
          rw [← hek, hea]
          exact beq_self_eq_true a
        simp only [dictInsert, hbe]
        rw [hasKey_cons]
        simp [hka]
      | false =>
        simp only [dictInsert, hbe]
        rw [hasKey_cons]
        simp [h1]
    · cases hbe : e.1 == k with
      | true =>
        simp only [dictInsert, hbe]
        rw [hasKey_cons]
        simp [h1]
      | false =>
        simp only [dictInsert, hbe]
        rw [hasKey_cons]
        simp [ih h1]

theorem hasKey_iff_mem_keys {α : Type} (m : List (String × α)) (k : String) :
    hasKey m k = true ↔ k ∈ m.map Prod.fst := by
  simp only [hasKey, List.any_eq_true, List.mem_map, beq_iff_eq]

theorem mergeLeftStep_result_mono (lscan rscan : ScanMap) (st : MergeState)
    (lp a : String) (h : hasKey st.result a = true) :
    hasKey (mergeLeftStep lscan rscan st lp).result a = true := by
  cases hrap : leftMatch lscan rscan lp with
  | none =>
    simp only [mergeLeftStep, hrap]
    exact hasKey_dictInsert_mono _ _ _ _ h
  | some rap =>
    cases hc : (rap != lp &&
        !(hasKey (dictInsert st.result lp (canonicalMeta lscan rscan lp (some rap))) rap)) with
    | true =>
      simp only [mergeLeftStep, hrap, hc]
      exact hasKey_dictInsert_mono _ _ _ _ (hasKey_dictInsert_mono _ _ _ _ h)
    | false =>
      simp only [mergeLeftStep, hrap, hc]
      exact hasKey_dictInsert_mono _ _ _ _ h

theorem mergeLeftStep_result_self (lscan rscan : ScanMap) (st : MergeState) (lp : String) :
    hasKey (mergeLeftStep lscan rscan st lp).result lp = true := by
  cases hrap : leftMatch lscan rscan lp with
  | none =>
    simp only [mergeLeftStep, hrap]
    exact hasKey_dictInsert_self _ _ _
  | some rap =>
    cases hc : (rap != lp &&
        !(hasKey (dictInsert st.result lp (canonicalMeta lscan rscan lp (some rap))) rap)) with
    | true =>
      simp only [mergeLeftStep, hrap, hc]
      exact hasKey_dictInsert_mono _ _ _ _ (hasKey_dictInsert_self _ _ _)
    | false =>
      simp only [mergeLeftStep, hrap, hc]
      exact hasKey_dictInsert_self _ _ _

theorem mergeLeftStep_processed_sub (lscan rscan : ScanMap) (st : MergeState) (lp : String)
    (hinv : ∀ k, memStr st.processed k = true → hasKey st.result k = true) :
    ∀ k, memStr (mergeLeftStep lscan rscan st lp).processed k = true →
      hasKey (mergeLeftStep lscan rscan st lp).result k = true := by
  intro k hk
  cases hrap : leftMatch lscan rscan lp with
  | none =>
    simp only [mergeLeftStep, hrap] at hk ⊢
    exact hasKey_dictInsert_mono _ _ _ _ (hinv k hk)
  | some rap =>
    cases hc : (rap != lp &&
        !(hasKey (dictInsert st.result lp (canonicalMeta lscan rscan lp (some rap))) rap)) with
    | true =>
      simp only [mergeLeftStep, hrap, hc] at hk ⊢
      rw [memStr_cons, Bool.or_eq_true] at hk
      rcases hk with h1 | h1
      · have hrk : rap = k := by simpa using h1
        subst hrk
        exact hasKey_dictInsert_self _ _ _
      · exact hasKey_dictInsert_mono _ _ _ _ (hasKey_dictInsert_mono _ _ _ _ (hinv k h1))
    | false =>
      simp only [mergeLeftStep, hrap, hc] at hk ⊢
      rw [memStr_cons, Bool.or_eq_true] at hk
      rcases hk with h1 | h1
      · have hrk : rap = k := by simpa using h1
        subst hrk
        cases hne : (rap != lp) with
        | false =>
          have hrl : rap = lp := by simpa using hne
          rw [hrl]
          exact hasKey_dictInsert_self _ _ _
        | true =>
          rw [hne, Bool.true_and] at hc
          have : hasKey (dictInsert st.result lp
              (canonicalMeta lscan rscan lp (some rap))) rap = true := by
            simpa using hc
          exact this
      · exact hasKey_dictInsert_mono _ _ _ _ (hinv k h1)

theorem foldl_mergeLeftStep_mono (lscan rscan : ScanMap) (xs : List String) :
    ∀ (st : MergeState) (a : String), hasKey st.result a = true →
      hasKey ((xs.foldl (mergeLeftStep lscan rscan) st)).result a = true := by
  induction xs with
  | nil =>
    intro st a h
    simpa using h
  | cons x xs ih =>
    intro st a h
    simpa [List.foldl_cons] using
      ih (mergeLeftStep lscan rscan st x) a (mergeLeftStep_result_mono _ _ _ _ _ h)

theorem foldl_mergeLeftStep_self (lscan rscan : ScanMap) (xs : List String) :
    ∀ (st : MergeState) (a : String), a ∈ xs →
      hasKey ((xs.foldl (mergeLeftStep lscan rscan) st)).result a = true := by
  induction xs with
  | nil =>
    intro st a ha
    cases ha
  | cons x xs ih =>
    intro st a ha
    rcases List.mem_cons.mp ha with rfl | hmem
    · simpa [List.foldl_cons] using
        foldl_mergeLeftStep_mono lscan rscan xs (mergeLeftStep lscan rscan st a) a
          (mergeLeftStep_result_self _ _ _ _)
    · simpa [List.foldl_cons] using ih (mergeLeftStep lscan rscan st x) a hmem

theorem foldl_mergeLeftStep_processed_sub (lscan rscan : ScanMap) (xs : List String) :
    ∀ (st : MergeState),
      (∀ k, memStr st.processed k = true → hasKey st.result k = true) →
      ∀ k, memStr ((xs.foldl (mergeLeftStep lscan rscan) st)).processed k = true →
        hasKey ((xs.foldl (mergeLeftStep lscan rscan) st)).result k = true := by
  induction xs with
  | nil =>
    intro st hinv
    exact hinv
  | cons x xs ih =>
    intro st hinv
    simpa [List.foldl_cons] using
      ih (mergeLeftStep lscan rscan st x) (mergeLeftStep_processed_sub _ _ _ _ hinv)

theorem mergeRightStep_result_mono (rscan : ScanMap) (st : MergeState)
    (rp a : String) (h : hasKey st.result a = true) :
    hasKey (mergeRightStep rscan st rp).result a = true := by
  cases hp : memStr st.processed rp with
  | true => simpa [mergeRightStep, hp] using h
  | false =>
    simp only [mergeRightStep, hp]
    exact hasKey_dictInsert_mono _ _ _ _ h

theorem mergeRightStep_processed_sub (rscan : ScanMap) (st : MergeState) (rp : String)
    (hinv : ∀ k, memStr st.processed k = true → hasKey st.result k = true) :
    ∀ k, memStr (mergeRightStep rscan st rp).processed k = true →
      hasKey (mergeRightStep rscan st rp).result k = true := by
  intro k hk
  have hproc : (mergeRightStep rscan st rp).processed = st.processed := by
    cases hp : memStr st.processed rp with
    | true => simp [mergeRightStep, hp]
    | false => simp [mergeRightStep, hp]
  rw [hproc] at hk
  exact mergeRightStep_result_mono _ _ _ _ (hinv k hk)

theorem foldl_mergeRightStep_mono (rscan : ScanMap) (xs : List String) :
    ∀ (st : MergeState) (a : String), hasKey st.result a = true →
      hasKey ((xs.foldl (mergeRightStep rscan) st)).result a = true := by
  induction xs with
  | nil =>
    intro st a h
    simpa using h
  | cons x xs ih =>
    intro st a h
    simpa [List.foldl_cons] using
      ih (mergeRightStep rscan st x) a (mergeRightStep_result_mono _ _ _ _ h)

theorem foldl_mergeRightStep_complete (rscan : ScanMap) (xs : List String) :
    ∀ (st : MergeState),
      (∀ k, memStr st.processed k = true → hasKey st.result k = true) →
      ∀ a, a ∈ xs → hasKey ((xs.foldl (mergeRightStep rscan) st)).result a = true := by
  induction xs with
  | nil =>
    intro st hinv a ha
    cases ha
  | cons x xs ih =>
    intro st hinv a ha
    have hinv' := mergeRightStep_processed_sub rscan st x hinv
    rcases List.mem_cons.mp ha with rfl | hmem
    · have hx : hasKey (mergeRightStep rscan st a).result a = true := by
        cases hp : memStr st.processed a with
        | true => simpa [mergeRightStep, hp] using hinv a hp
        | false =>
          simp only [mergeRightStep, hp]
          exact hasKey_dictInsert_self _ _ _
      simpa [List.foldl_cons] using
        foldl_mergeRightStep_mono rscan xs (mergeRightStep rscan st a) a hx
    · simpa [List.foldl_cons] using ih (mergeRightStep rscan st x) hinv' a hmem

/-- C10: every key of the left scan and every key of the right scan appears
in the merged output at least once under its own exact casing - as a
canonical entry, a case-variant entry, or an unmatched-right entry. -/
theorem c10_merge_scans_preserves_keys (lscan rscan : ScanMap) (k : String) :
    (hasKey lscan k = true → hasKey (mergeScans lscan rscan) k = true) ∧
    (hasKey rscan k = true → hasKey (mergeScans lscan rscan) k = true) := by
  constructor
  · intro h
    have hk : k ∈ lscan.map Prod.fst := (hasKey_iff_mem_keys _ _).mp h
    unfold mergeScans
    exact foldl_mergeRightStep_mono _ _ _ _
      (foldl_mergeLeftStep_self lscan rscan _ _ _ hk)
  · intro h
    have hk : k ∈ rscan.map Prod.fst := (hasKey_iff_mem_keys _ _).mp h
    unfold mergeScans
    refine foldl_mergeRightStep_complete _ _ _ ?_ k hk
    exact foldl_mergeLeftStep_processed_sub lscan rscan _ _
      (fun j hj => by simp [memStr] at hj)

/-- Witness for C10 on a concrete case-variant pair: the right-side
casing `a.txt` survives into the merged output alongside the left `A.txt`. -/
theorem c10_merge_scans_witness :
    hasKey [("a.txt", (⟨2, 2, 0⟩ : ScanEntry))] "a.txt" = true ∧
    hasKey (mergeScans [("A.txt", ⟨1, 1, 0⟩)] [("a.txt", ⟨2, 2, 0⟩)]) "a.txt" = true :=
  ⟨by decide,
    (c10_merge_scans_preserves_keys [("A.txt", ⟨1, 1, 0⟩)] [("a.txt", ⟨2, 2, 0⟩)]
      "a.txt").2 (by decide)⟩

end RemoteOfficeSync
